import Mathlib

/-!
# Verification of `local-ssl-certs` (squaredle/modules)

Shallow embedding of `src/workspaces/local-ssl-certs/cert-builder.js`:
the SSL-certificate validator (`CertBuilder.validateSslCert`) and the
PKI hierarchy builder (`createRootCA`, `issueSignedCert`, `#getTempDir`,
`#cleanUp`, `sharedConfig`).

External collaborators (the openssl engine, the confirmation prompt, the
password prompt, `mkdtemp`) are modelled as oracles supplying their
results; every engine invocation, prompt, stdin write and config-file
write performed by the code is recorded in an explicit effect trace, in
program order.  JavaScript machine details that the code relies on are
modelled explicitly and noted where they occur (regular-expression
semantics, `Date` arithmetic in milliseconds, `process.exit`).
-/

namespace LocalSslCerts

/-! ## JavaScript string/regex primitives

The validator parses the free-form text output of openssl with the JS
regexes `/notAfter=(.+)/`, `/subject=.*CN\s*=\s*([^/,\n]+)/` and
`/DNS:([^,\n]+)/g`, and trims with `String.prototype.trim`.  These are
modelled over `List Char`.  JS line terminators are `\n`, `\r`,
U+2028, U+2029 (`.` matches everything else); JS `\s` additionally
contains space, tab, `\v`, `\f`, NBSP and BOM (the rarer Unicode space
code points, which never occur in openssl output, are elided). -/

/-- JS line terminator (not matched by `.`, terminates `[^...\n]` runs
containing `\n` only when the char is `\n` itself). -/
def isLineTerm (c : Char) : Bool :=
  c = '\n' ∨ c = '\r' ∨ c = '\u2028' ∨ c = '\u2029'

/-- JS `\s` / `trim` whitespace (ASCII part plus NBSP/BOM/LS/PS). -/
def isJsSpace (c : Char) : Bool :=
  c = ' ' ∨ c = '\t' ∨ c = '\n' ∨ c = '\r' ∨ c = '\x0b' ∨ c = '\x0c' ∨
  c = '\u00a0' ∨ c = '\u2028' ∨ c = '\u2029' ∨ c = '\ufeff'

/-- JS `String.prototype.trim`. -/
def jsTrim (l : List Char) : List Char :=
  ((l.dropWhile isJsSpace).reverse.dropWhile isJsSpace).reverse

/-- JS `str.match(/notAfter=(.+)/)`, capture 1: at the leftmost position
where the literal `notAfter=` is followed by at least one non-terminator
character, capture the maximal run of non-terminator characters
(`.+` is greedy and `.` does not cross line terminators); if the run
after a given occurrence is empty the engine moves to later start
positions. -/
def matchNotAfterAux : List Char → Option (List Char)
  | [] => none
  | c :: rest =>
    if "notAfter=".data.isPrefixOf (c :: rest) then
      let cap := ((c :: rest).drop 9).takeWhile (fun ch => !(isLineTerm ch))
      if cap.isEmpty then matchNotAfterAux rest else some cap
    else matchNotAfterAux rest

def matchNotAfter (l : List Char) : Option (List Char) := matchNotAfterAux l

/-- Character class `[^/,\n]` of the CN capture. -/
def capCN (c : Char) : Bool := !(c = '/' ∨ c = ',' ∨ c = '\n')

/-- Tail `\s*=\s*([^/,\n]+)` of the CN regex, matched at the position
right after the literal `CN`.  `\s*=`: since `=` is not whitespace,
backtracking cannot shorten a greedy `\s*` run in front of a literal
`=`, so the maximal whitespace run must be followed by `=`.
`\s*([^/,\n]+)`: the greedy whitespace run is tried first; if the
character after it is not in `[^/,\n]` (or the input ends there), the
engine gives whitespace back one character at a time, and the first
given-back character that is not `\n` starts the capture; every
whitespace character other than `\n` is in `[^/,\n]` and every
character after it up to the old run end is `\n` or the rejected
character, so the backtracked capture is exactly that single
character. -/
def tailCN (l : List Char) : Option (List Char) :=
  match l.dropWhile isJsSpace with
  | '=' :: l2 =>
    let run := l2.takeWhile isJsSpace
    let rest := l2.dropWhile isJsSpace
    match rest with
    | c :: _ =>
      if capCN c then some (rest.takeWhile capCN)
      else ((run.filter (fun ch => !(ch = '\n'))).getLast?).map (fun ch => [ch])
    | [] => ((run.filter (fun ch => !(ch = '\n'))).getLast?).map (fun ch => [ch])
  | _ => none

/-- Attempt `CN\s*=\s*([^/,\n]+)` exactly at offset `n` of `l`. -/
def cnAt (l : List Char) (n : Nat) : Option (List Char) :=
  if "CN".data.isPrefixOf (l.drop n) then tailCN (l.drop (n + 2)) else none

/-- Greedy `.*CN...`: offsets are tried from the rightmost one the
greedy `.*` reaches (the end of the current line) leftwards; the first
offset where the rest of the pattern matches wins. -/
def cnSearch (l : List Char) : Nat → Option (List Char)
  | 0 => cnAt l 0
  | n + 1 =>
    match cnAt l (n + 1) with
    | some cap => some cap
    | none => cnSearch l n

/-- JS `str.match(/subject=.*CN\s*=\s*([^\/,\n]+)/)`, capture 1: the match
starts at the leftmost occurrence of the literal `subject=` from which
the rest of the pattern can match; `.*` cannot cross a line
terminator, so `CN` starts within the same line as the position after
`subject=`. -/
def matchCNAux : List Char → Option (List Char)
  | [] => none
  | c :: rest =>
    if "subject=".data.isPrefixOf (c :: rest) then
      let l := (c :: rest).drop 8
      match cnSearch l ((l.takeWhile (fun ch => !(isLineTerm ch))).length) with
      | some cap => some cap
      | none => matchCNAux rest
    else matchCNAux rest

def matchCN (l : List Char) : Option (List Char) := matchCNAux l

/-- Character class `[^,\n]` of the DNS capture. -/
def dnsClass (c : Char) : Bool := !(c = ',' ∨ c = '\n')

/-- JS `str.matchAll(/DNS:([^,\n]+)/g)`, captures 1: successive
non-overlapping leftmost matches; after a match the scan resumes at
the end of the match (= end of the capture). -/
def dnsMatchesAux : Nat → List Char → List (List Char)
  | 0, _ => []
  | _ + 1, [] => []
  | fuel + 1, c :: rest =>
    if "DNS:".data.isPrefixOf (c :: rest) then
      let after := (c :: rest).drop 4
      let cap := after.takeWhile dnsClass
      if cap.isEmpty then dnsMatchesAux fuel rest
      else cap :: dnsMatchesAux fuel (after.drop cap.length)
    else dnsMatchesAux fuel rest

/-- The scan consumes at least one character per step (a successful
match consumes at least five), so `l.length` steps of fuel always
suffice and the fuel never runs out. -/
def dnsMatches (l : List Char) : List (List Char) := dnsMatchesAux l.length l

/-! ## The SSL-certificate validator (`CertBuilder.validateSslCert`)

`validateSslCert` (cert-builder.js lines 174-288) runs a fixed sequence
of openssl invocations through `runOpenSSL`/`spawnAsync`; an invocation
that exits non-zero makes the awaited promise reject, which aborts the
whole validation with that invocation's error.  The engine is modelled
as an oracle mapping each invocation to either its stdout text or a
non-zero-exit failure, together with the current clock and the JS
`new Date(string)` parser (`none` models an `Invalid Date`, whose `NaN`
timestamp makes every `>=`/`<` comparison false). -/

/-- The openssl invocations issued by `validateSslCert`, in source
order: `x509 -checkend 0`, `rsa -check`, `verify -purpose sslserver`,
`x509 -enddate`, `x509 -subject`, `x509 -ext subjectAltName`,
`x509 -modulus`, `rsa -modulus`. -/
inductive Inv
  | checkend | rsaCheck | verify | enddate | subject | altNames
  | certModulus | keyModulus
deriving DecidableEq

structure Engine where
  /-- stdout of each invocation, or `.error ()` for a non-zero exit. -/
  run : Inv → Except Unit String
  /-- `new Date(s).getTime()` in milliseconds; `none` = `Invalid Date`. -/
  parseDate : String → Option Int
  /-- `new Date().getTime()` at validation time, in milliseconds. -/
  now : Int

/-- The errors `validateSslCert` can throw, one constructor per
`throw`/rejection site. -/
inductive VError
  | engineFailure (inv : Inv)       -- a `runOpenSSL` promise rejected
  | expired                         -- "Certificate expired on ..."
  | parseEnddate                    -- "Could not parse certificate expiration date."
  | cnNotFound                      -- "Could not find common name (CN) in certificate."
  | missingHostnames (missing : List String)
                                    -- "Some hostnames not found in certificate: ..."
  | keyMismatch                     -- "Certificate and private key do not match."
deriving DecidableEq

/-- The six checks of the validation sequence, in the order the code
performs them. -/
inductive Check
  | expiry | keyIntegrity | trustChain | notAfterExtraction
  | nameCoverage | modulusPairing
deriving DecidableEq

def allChecks : List Check :=
  [.expiry, .keyIntegrity, .trustChain, .notAfterExtraction,
   .nameCoverage, .modulusPairing]

/-- Which check each invocation belongs to. -/
def invCheck : Inv → Check
  | .checkend => .expiry
  | .rsaCheck => .keyIntegrity
  | .verify => .trustChain
  | .enddate => .notAfterExtraction
  | .subject => .nameCoverage
  | .altNames => .nameCoverage
  | .certModulus => .modulusPairing
  | .keyModulus => .modulusPairing

/-- Which check each error belongs to. -/
def errCheck : VError → Check
  | .engineFailure inv => invCheck inv
  | .expired => .notAfterExtraction
  | .parseEnddate => .notAfterExtraction
  | .cnNotFound => .nameCoverage
  | .missingHostnames _ => .nameCoverage
  | .keyMismatch => .modulusPairing

/-- Expiration-window step (lines 204-228): run `x509 -enddate`, match
`/notAfter=(.+)/` against its stdout, throw a parse error when absent;
parse the captured text as a date; throw when `now >= notAfter`;
otherwise succeed, returning whether the near-expiry warning
(`notAfter - now < 14 * 24 * 60 * 60 * 1000`) was printed.  With an
`Invalid Date` both `NaN` comparisons are false, so the step succeeds
without warning. -/
def expiryWindow (e : Engine) : Except VError Bool :=
  match e.run .enddate with
  | .error _ => .error (.engineFailure .enddate)
  | .ok out =>
    match matchNotAfter out.data with
    | none => .error .parseEnddate
    | some cap =>
      match e.parseDate (String.mk cap) with
      | none => .ok false
      | some notAfter =>
        if e.now ≥ notAfter then .error .expired
        else .ok (decide (notAfter - e.now < 14 * 24 * 60 * 60 * 1000))

/-- The combined name list of lines 247-255: the trimmed CN capture
followed by the trimmed `DNS:` captures of the SAN extension text. -/
def coveredNames (cnCap : List Char) (altOut : String) : List String :=
  String.mk (jsTrim cnCap) ::
    (dnsMatches altOut.data).map (fun m => String.mk (jsTrim m))

/-- Name-coverage step (lines 230-265): run `x509 -subject` and
`x509 -ext subjectAltName`, parse the CN (throwing when absent),
collect the names, and throw listing the requested hostnames missing
from the collected names when there are any. -/
def nameCoverageStep (e : Engine) (hostnames : List String) :
    Except VError Unit :=
  match e.run .subject with
  | .error _ => .error (.engineFailure .subject)
  | .ok subjOut =>
    match e.run .altNames with
    | .error _ => .error (.engineFailure .altNames)
    | .ok altOut =>
      match matchCN subjOut.data with
      | none => .error .cnNotFound
      | some cnCap =>
        let names := coveredNames cnCap altOut
        let missingNames := hostnames.filter (fun h => !(names.contains h))
        if missingNames.length > 0 then .error (.missingHostnames missingNames)
        else .ok ()

/-- Key/certificate pairing step (lines 267-287): compare the trimmed
stdout of `x509 -modulus` and `rsa -modulus`. -/
def modulusStep (e : Engine) : Except VError Unit :=
  match e.run .certModulus with
  | .error _ => .error (.engineFailure .certModulus)
  | .ok certOut =>
    match e.run .keyModulus with
    | .error _ => .error (.engineFailure .keyModulus)
    | .ok keyOut =>
      if String.mk (jsTrim certOut.data) ≠ String.mk (jsTrim keyOut.data) then
        .error .keyMismatch
      else .ok ()

/-- Validation outcome: the thrown error (or success), the checks the
run started, in order, and whether the near-expiry warning was
printed. -/
structure VResult where
  result : Except VError Unit
  checks : List Check
  warned : Bool

/-- The function `CertBuilder.validateSslCert` (lines 174-288).  The three "basic
validations" (`-checkend 0`, `rsa -check`, `verify`) are awaited one at
a time, then the expiration-window, name-coverage and modulus steps
run in that order; the first rejection/throw aborts the rest. -/
def validateSslCert (e : Engine) (hostnames : List String) : VResult :=
  match e.run .checkend with
  | .error _ => ⟨.error (.engineFailure .checkend), [.expiry], false⟩
  | .ok _ =>
    match e.run .rsaCheck with
    | .error _ => ⟨.error (.engineFailure .rsaCheck), [.expiry, .keyIntegrity], false⟩
    | .ok _ =>
      match e.run .verify with
      | .error _ =>
        ⟨.error (.engineFailure .verify), [.expiry, .keyIntegrity, .trustChain], false⟩
      | .ok _ =>
        match expiryWindow e with
        | .error err =>
          ⟨.error err, [.expiry, .keyIntegrity, .trustChain, .notAfterExtraction], false⟩
        | .ok warned =>
          match nameCoverageStep e hostnames with
          | .error err =>
            ⟨.error err,
             [.expiry, .keyIntegrity, .trustChain, .notAfterExtraction, .nameCoverage],
             warned⟩
          | .ok _ =>
            match modulusStep e with
            | .error err => ⟨.error err, allChecks, warned⟩
            | .ok _ => ⟨.ok (), allChecks, warned⟩

/-! ### Validator lemmas -/

theorem expiryWindow_errCheck (e : Engine) (err : VError)
    (h : expiryWindow e = .error err) : errCheck err = .notAfterExtraction := by
  unfold expiryWindow at h
  repeat' split at h
  all_goals first
    | (cases h; rfl)
    | (simp at h; done)
    | (rw [ite_eq_iff] at h
       rcases h with ⟨hc, h⟩ | ⟨hc, h⟩ <;> first | (cases h; rfl) | simp at h)

theorem nameCoverageStep_errCheck (e : Engine) (hs : List String) (err : VError)
    (h : nameCoverageStep e hs = .error err) : errCheck err = .nameCoverage := by
  unfold nameCoverageStep at h
  repeat' split at h
  all_goals first
    | (cases h; rfl)
    | (simp at h; done)
    | (rw [ite_eq_iff] at h
       rcases h with ⟨hc, h⟩ | ⟨hc, h⟩ <;> first | (cases h; rfl) | simp at h)

theorem modulusStep_errCheck (e : Engine) (err : VError)
    (h : modulusStep e = .error err) : errCheck err = .modulusPairing := by
  unfold modulusStep at h
  repeat' split at h
  all_goals first
    | (cases h; rfl)
    | (simp at h; done)
    | (rw [ite_eq_iff] at h
       rcases h with ⟨hc, h⟩ | ⟨hc, h⟩ <;> first | (cases h; rfl) | simp at h)

/-- C1: `validateSslCert` performs its checks in the order expiry,
key-integrity, trust-chain, not-after extraction, name coverage,
modulus pairing, and stops at the first check that fails: when it
succeeds all six checks ran in that order, and when it throws `err`,
the checks that ran are exactly the first `k+1` of that order, where
the `k`-th check (0-based, the last one started) is the check `err`
belongs to — no later check is performed. -/
theorem validateSslCert_check_order (e : Engine) (hs : List String) :
    ((validateSslCert e hs).result = .ok () →
      (validateSslCert e hs).checks = allChecks) ∧
    (∀ err, (validateSslCert e hs).result = .error err →
      ∃ k, ∃ hk : k < allChecks.length,
        (validateSslCert e hs).checks = allChecks.take (k + 1) ∧
        allChecks.get ⟨k, hk⟩ = errCheck err) := by
  unfold validateSslCert
  rcases h1 : e.run .checkend with u | s1
  · exact ⟨fun hok => by simp at hok,
      fun err herr => by
        cases herr; exact ⟨0, by decide, rfl, by decide⟩⟩
  · rcases h2 : e.run .rsaCheck with u | s2
    · exact ⟨fun hok => by simp at hok,
        fun err herr => by
          cases herr; exact ⟨1, by decide, rfl, by decide⟩⟩
    · rcases h3 : e.run .verify with u | s3
      · exact ⟨fun hok => by simp at hok,
          fun err herr => by
            cases herr; exact ⟨2, by decide, rfl, by decide⟩⟩
      · rcases h4 : expiryWindow e with err4 | warned
        · exact ⟨fun hok => by simp at hok,
            fun err herr => by
              cases herr
              exact ⟨3, by decide, rfl, by
                rw [expiryWindow_errCheck e err4 h4]; rfl⟩⟩
        · rcases h5 : nameCoverageStep e hs with err5 | u5
          · exact ⟨fun hok => by simp at hok,
              fun err herr => by
                cases herr
                exact ⟨4, by decide, rfl, by
                  rw [nameCoverageStep_errCheck e hs err5 h5]; rfl⟩⟩
          · rcases h6 : modulusStep e with err6 | u6
            · exact ⟨fun hok => by simp at hok,
                fun err herr => by
                  cases herr
                  exact ⟨5, by decide, rfl, by
                    rw [modulusStep_errCheck e err6 h6]; rfl⟩⟩
            · exact ⟨fun _ => rfl, fun err herr => by simp at herr⟩

/-- A concrete engine on which every check of `validateSslCert`
passes: the certificate covers `a.test` and `b.test`, expires far in
the future, and its modulus matches the key's. -/
def ePass : Engine :=
  ⟨fun inv =>
    match inv with
    | .checkend => .ok ""
    | .rsaCheck => .ok "RSA key ok\n"
    | .verify => .ok "cert.crt: OK\n"
    | .enddate => .ok "notAfter=May 30 10:48:22 2090 GMT\n"
    | .subject => .ok "subject=C = US, O = Acme, CN = a.test\n"
    | .altNames =>
      .ok "X509v3 Subject Alternative Name: \n    DNS:a.test, DNS:b.test\n"
    | .certModulus => .ok "Modulus=C0FFEE\n"
    | .keyModulus => .ok "Modulus=C0FFEE\n",
   fun _ => some 3801081600000,
   1760227200000⟩

/-- Witness for C1: on `ePass` the validation succeeds and all six
checks ran in order. -/
theorem validateSslCert_check_order_witness :
    (validateSslCert ePass ["a.test"]).result = .ok () ∧
    (validateSslCert ePass ["a.test"]).checks = allChecks :=
  ⟨rfl, (validateSslCert_check_order ePass ["a.test"]).1 rfl⟩

/-- C2: when the subject line yields a Common Name (and the two
invocations feeding the name-coverage step succeeded), the
name-coverage step fails with `MissingHostnamesError` if and only if
some requested hostname is absent from the trimmed CN plus the trimmed
`DNS:` entries, and the error lists exactly the absent hostnames. -/
theorem nameCoverage_missing_iff (e : Engine) (hs : List String)
    (so ao : String) (cnCap : List Char)
    (hso : e.run .subject = .ok so) (hao : e.run .altNames = .ok ao)
    (hcn : matchCN so.data = some cnCap) :
    ((∃ m, nameCoverageStep e hs = .error (.missingHostnames m)) ↔
      ∃ h, h ∈ hs ∧ ¬ h ∈ coveredNames cnCap ao) ∧
    (∀ m, nameCoverageStep e hs = .error (.missingHostnames m) →
      m = hs.filter (fun h => !((coveredNames cnCap ao).contains h)) ∧
      ∀ x, x ∈ m ↔ (x ∈ hs ∧ ¬ x ∈ coveredNames cnCap ao)) := by
  have hstep : nameCoverageStep e hs =
      (if 0 < (hs.filter (fun h => !((coveredNames cnCap ao).contains h))).length
       then .error (.missingHostnames
         (hs.filter (fun h => !((coveredNames cnCap ao).contains h))))
       else .ok ()) := by
    unfold nameCoverageStep
    simp only [hso, hao, hcn]
  have hmem : ∀ x, x ∈ hs.filter (fun h => !((coveredNames cnCap ao).contains h)) ↔
      (x ∈ hs ∧ ¬ x ∈ coveredNames cnCap ao) := by
    intro x
    simp [List.mem_filter]
  constructor
  · constructor
    · rintro ⟨m, hm⟩
      rw [hstep] at hm
      by_cases hc : 0 < (hs.filter (fun h => !((coveredNames cnCap ao).contains h))).length
      · rcases List.exists_mem_of_length_pos hc with ⟨x, hx⟩
        exact ⟨x, (hmem x).mp hx⟩
      · rw [if_neg hc] at hm; simp at hm
    · rintro ⟨x, hxs, hxn⟩
      have hx : x ∈ hs.filter (fun h => !((coveredNames cnCap ao).contains h)) :=
        (hmem x).mpr ⟨hxs, hxn⟩
      have hc : 0 < (hs.filter (fun h => !((coveredNames cnCap ao).contains h))).length :=
        List.length_pos.mpr (List.ne_nil_of_mem hx)
      exact ⟨_, by rw [hstep, if_pos hc]⟩
  · intro m hm
    rw [hstep] at hm
    by_cases hc : 0 < (hs.filter (fun h => !((coveredNames cnCap ao).contains h))).length
    · rw [if_pos hc] at hm
      cases hm
      exact ⟨rfl, hmem⟩
    · rw [if_neg hc] at hm; simp at hm

/-- Witness for C2, realizing the spec's concrete example: a
certificate whose CN is `a.test` and whose SAN lists `a.test` and
`b.test`, validated against `["a.test", "missing.test"]`, yields
`MissingHostnamesError` listing exactly `["missing.test"]`. -/
theorem nameCoverage_missing_iff_witness :
    ePass.run .subject = .ok "subject=C = US, O = Acme, CN = a.test\n" ∧
    matchCN "subject=C = US, O = Acme, CN = a.test\n".data = some "a.test".data ∧
    nameCoverageStep ePass ["a.test", "missing.test"] =
      .error (.missingHostnames ["missing.test"]) ∧
    ((∃ m, nameCoverageStep ePass ["a.test", "missing.test"] =
        .error (.missingHostnames m)) ↔
      ∃ h, h ∈ ["a.test", "missing.test"] ∧
        ¬ h ∈ coveredNames "a.test".data
          "X509v3 Subject Alternative Name: \n    DNS:a.test, DNS:b.test\n") :=
  ⟨rfl, rfl, rfl,
    (nameCoverage_missing_iff ePass ["a.test", "missing.test"]
      "subject=C = US, O = Acme, CN = a.test\n"
      "X509v3 Subject Alternative Name: \n    DNS:a.test, DNS:b.test\n"
      "a.test".data rfl rfl rfl).1⟩

/-- C3: in the expiration-window step, if the enddate output does not
match `/notAfter=(.+)/` the step fails with the parse error; otherwise
with parsed time `t` and current time `now`: if `now >= t` it fails
with the expired error, and if `now < t` it succeeds, warning exactly
when `t` is strictly less than 14 days (in ms) in the future. -/
theorem expiryWindow_spec (e : Engine) (out : String)
    (ho : e.run .enddate = .ok out) :
    (matchNotAfter out.data = none → expiryWindow e = .error .parseEnddate) ∧
    (∀ cap t, matchNotAfter out.data = some cap →
      e.parseDate (String.mk cap) = some t →
      (e.now ≥ t → expiryWindow e = .error .expired) ∧
      (e.now < t →
        expiryWindow e = .ok (decide (t - e.now < 14 * 24 * 60 * 60 * 1000)))) := by
  constructor
  · intro hm
    unfold expiryWindow
    simp only [ho, hm]
  · intro cap t hm hp
    constructor
    · intro hge
      unfold expiryWindow
      simp only [ho, hm, hp]
      rw [if_pos hge]
    · intro hlt
      unfold expiryWindow
      simp only [ho, hm, hp]
      rw [if_neg (by omega)]

/-- An engine whose enddate output parses to time `t` with clock
`now0` (the other invocations are irrelevant to the expiration-window
step). -/
def eEnd (t now0 : Int) : Engine :=
  ⟨fun inv =>
    match inv with
    | .enddate => .ok "notAfter=May 30 10:48:22 2028 GMT\n"
    | _ => .ok "",
   fun _ => some t,
   now0⟩

/-- An engine whose enddate output has no `notAfter=` line. -/
def eEndGarbage : Engine :=
  ⟨fun inv =>
    match inv with
    | .enddate => .ok "unparseable\n"
    | _ => .ok "",
   fun _ => none,
   0⟩

/-- Witness for C3: a certificate expiring in 10 days warns, one
expiring in 20 days does not, an already-expired one fails with the
expired error, and unparseable enddate output fails with the parse
error.  (10 days = 864000000 ms, 20 days = 1728000000 ms, the warning
threshold is 1209600000 ms.) -/
theorem expiryWindow_spec_witness :
    expiryWindow (eEnd 864000000 0) = .ok true ∧
    expiryWindow (eEnd 1728000000 0) = .ok false ∧
    expiryWindow (eEnd 864000000 864000001) = .error .expired ∧
    expiryWindow eEndGarbage = .error .parseEnddate :=
  ⟨((expiryWindow_spec (eEnd 864000000 0) _ rfl).2
      "May 30 10:48:22 2028 GMT".data 864000000 rfl rfl).2 (by decide),
   ((expiryWindow_spec (eEnd 1728000000 0) _ rfl).2
      "May 30 10:48:22 2028 GMT".data 1728000000 rfl rfl).2 (by decide),
   ((expiryWindow_spec (eEnd 864000000 864000001) _ rfl).2
      "May 30 10:48:22 2028 GMT".data 864000000 rfl rfl).1 (by decide),
   (expiryWindow_spec eEndGarbage _ rfl).1 rfl⟩

/-! ## The PKI hierarchy builder

`CertOptions`, `CertBuilder.sharedConfig`, `#getTempDir`,
`createRootCA`, `issueSignedCert` and `#cleanUp` (cert-builder.js).
The filesystem is modelled as the set of paths `fs.existsSync` reports
as present; prompts, engine invocations, stdin writes, config-file
writes and `mkdtemp` are recorded as effects in program order.
`process.exit(1)` is modelled as a distinguished result. -/

/-- The options class `CertOptions` (lines 24-33) with its constructor defaults.  (The
JS constructor takes `options.org || "Acme"` etc.; the defaulting
itself is not under test, so the resolved fields are modelled
directly.) -/
structure CertOptions where
  org : String := "Acme"
  countryName : String := "US"
  keyType : String := "rsa"
  keyCipher : String := "aes256"
  safeMode : Bool := true
deriving DecidableEq

/-- The descriptor class `CertInfo` (cert-info.js): a certificate/key path pair plus an
optional password. -/
structure CertInfo where
  certPath : String
  keyPath : String
  password : Option String := none
deriving DecidableEq

/-- Observable actions of the builder, in program order. -/
inductive Effect
  | confirmPrompt (msg : String)              -- cli.confirm(msg)
  | passwordPrompt (msg : String)             -- passwordPrompt(msg, ...)
  | spawn (cmd : String) (args : List String) -- spawnAsync(cmd, args, ...)
  | stdinWrite (data : String)                -- childProcess.stdin.write(data)
  | writeConf (path : String)
      (sections : List (String × List (String × String)))
                                              -- #writeConfFile(path, sections)
  | mkdtemp (path : String)                   -- fsPromises.mkdtemp ran, yielding path
deriving DecidableEq

/-- Builder state: the paths that exist on disk (`fs.existsSync`),
the `#newCAs` report list, the memoized `#tempDir` and the
`#rootCAInfo` field. -/
structure BuilderState where
  fs : List String
  newCAs : List String
  tempDir : Option String
  rootCAInfo : Option CertInfo := none
deriving DecidableEq

/-- Path `join` from `node:path` on two segments (no normalization is ever
needed for the paths the builder produces). -/
def joinPath (a b : String) : String := a ++ "/" ++ b

/-- The accessor `#getTempDir` (lines 642-650): memoized creation of the
process-lifetime workspace.  `freshName` is the unique name
`fsPromises.mkdtemp(join(os.tmpdir(), "local-ssl-certs-"))` would
produce. -/
def getTempDir (st : BuilderState) (freshName : String) :
    String × BuilderState × List Effect :=
  match st.tempDir with
  | some d => (d, st, [])
  | none => (freshName, { st with tempDir := some freshName }, [.mkdtemp freshName])

/-- The accessor `#getConfFile` (lines 652-654). -/
def confFilePath (tempDir : String) : String := joinPath tempDir "shared.conf"

/-! ### `sharedConfig` (lines 71-126) -/

def nameConstraintsVal : String := "critical,permitted;DNS:.test"

/-- Section `root_cert_extensions`: extensions of the self-signed root CA
cert.  The `nameConstraints` line is commented out in the source
(line 98). -/
def rootCertExtensions : List (String × String) :=
  [("basicConstraints", "critical,CA:TRUE"),
   ("keyUsage", "critical,keyCertSign"),
   ("extendedKeyUsage", "serverAuth,clientAuth"),
   ("subjectKeyIdentifier", "hash"),
   ("subjectAltName", "dirName:root_distinguished_name")]

/-- Section `cert_extensions`: extensions of the intermediate CA cert,
including the name constraint. -/
def certExtensions : List (String × String) :=
  [("basicConstraints", "critical,CA:TRUE"),
   ("nameConstraints", nameConstraintsVal),
   ("keyUsage", "critical,keyCertSign"),
   ("extendedKeyUsage", "serverAuth,clientAuth"),
   ("subjectKeyIdentifier", "hash"),
   ("subjectAltName", "dirName:req_distinguished_name"),
   ("authorityKeyIdentifier", "keyid:always")]

/-- Section `ssl_cert_extensions`: extensions of leaf SSL certs.  The
`nameConstraints` line is commented out in the source (line 119). -/
def sslCertExtensions : List (String × String) :=
  [("basicConstraints", "critical,CA:FALSE"),
   ("keyUsage", "critical,digitalSignature,keyEncipherment"),
   ("extendedKeyUsage", "serverAuth,clientAuth"),
   ("subjectKeyIdentifier", "hash"),
   ("subjectAltName", "dirName:req_distinguished_name"),
   ("authorityKeyIdentifier", "keyid:always")]

/-- JS object property assignment `obj[k] = v`: overwrites in place
when the key exists (JS keeps the original insertion position),
appends otherwise. -/
def setKey (l : List (String × String)) (k v : String) :
    List (String × String) :=
  if l.any (fun p => p.1 == k) then
    l.map (fun p => if p.1 == k then (k, v) else p)
  else l ++ [(k, v)]

/-- The `cert_extensions` section written to the request-specific
extension file for a leaf cert (lines 486-496):
`Object.assign({}, ssl_cert_extensions)` with `subjectAltName`
replaced by the joined `DNS:` entries. -/
def leafExtSection (san : List String) : List (String × String) :=
  setKey sslCertExtensions "subjectAltName" (String.intercalate "," san)

/-- The policy object `this.sharedConfig`, as an ordered section list. -/
def sharedConfig (opts : CertOptions) :
    List (String × List (String × String)) :=
  [("req",
    [("prompt", "no"),
     ("distinguished_name", "root_distinguished_name")]),
   ("root_distinguished_name",
    [("organizationName", opts.org),
     ("commonName", opts.org ++ " Root Dev CA"),
     ("countryName", opts.countryName)]),
   ("req_distinguished_name",
    [("organizationName", opts.org),
     ("commonName", opts.org ++ " Intermediate Dev CA"),
     ("countryName", opts.countryName)]),
   ("root_cert_extensions", rootCertExtensions),
   ("cert_extensions", certExtensions),
   ("ssl_cert_extensions", sslCertExtensions)]

/-! ### `issueSignedCert` (lines 392-522) -/

/-- Result of `issueSignedCert`: the returned `CertInfo`, the `null`
return after a declined overwrite confirmation, or `process.exit`. -/
inductive IssueResult
  | issued (info : CertInfo)
  | declined
  | exited (code : Nat)
deriving DecidableEq

/-- Collaborator responses during one `issueSignedCert` call:
`confirmAnswer` maps each confirmation message to the operator's
answer; `csrOk`/`signOk` tell whether the two engine invocations exit
zero; `tempDirName` is the name `mkdtemp` would produce. -/
structure IssueOracle where
  confirmAnswer : String → Bool
  csrOk : Bool
  signOk : Bool
  tempDirName : String

/-- The safe-mode loop of lines 396-405: for each target path, if it
exists, ask for confirmation; a declined answer aborts immediately
(the remaining paths are not probed). Returns whether the operation
may proceed, and the prompts issued. -/
def overwriteCheck (fs : List String) (confirmAnswer : String → Bool) :
    List String → Bool × List Effect
  | [] => (true, [])
  | p :: rest =>
    if fs.contains p then
      let msg := "Overwrite existing file " ++ p ++ "?"
      if confirmAnswer msg then
        let r := overwriteCheck fs confirmAnswer rest
        (r.1, .confirmPrompt msg :: r.2)
      else (false, [.confirmPrompt msg])
    else overwriteCheck fs confirmAnswer rest

/-- Arguments of the CSR-generation invocation (lines 418-442).  The
country component of `-subj` is the literal `US` in the source
(line 438), not `opts.countryName`. -/
def csrArgs (opts : CertOptions) (name keyPath tempDir : String) :
    List String :=
  ["req", "-batch", "-new", "-newkey", opts.keyType, "-nodes",
   "-keyout", keyPath,
   "-out", joinPath tempDir "req.csr",
   "-config", confFilePath tempDir,
   "-subj", "/C=US/O=" ++ opts.org ++ "/CN=" ++ name,
   "-text"]

/-- Arguments of the signing invocation (lines 458-504): the base
list, then `-extfile <extFile>` (line 497 or 499), then
`-passin stdin` when the issuer has a password (line 503).  The
number `9999` passed for `-days` is stringified by `spawn`. -/
def signArgs (tempDir issuerCertPath issuerKeyPath pathPref extFile : String)
    (hasPassword : Bool) : List String :=
  ["x509", "-req",
   "-in", joinPath tempDir "req.csr",
   "-CA", issuerCertPath,
   "-CAkey", issuerKeyPath,
   "-CAserial", joinPath tempDir "ca.srl",
   "-CAcreateserial",
   "-extensions", "cert_extensions",
   "-days", "9999",
   "-trustout",
   "-out", pathPref ++ ".crt",
   "-text"]
  ++ ["-extfile", extFile]
  ++ (if hasPassword then ["-passin", "stdin"] else [])

/-- The operation `issueSignedCert(name, issuer, hostnames)` (lines 392-522).
`hostnames = none` models the omitted argument (the JS default
`null`); the string overload is coerced to a one-element list by the
callers.  Steps: safe-mode overwrite confirmations; `subjAltName`
computation / `#newCAs` registration (`hostnames?.length > 0`);
workspace resolution; CSR generation (`process.exit(1)` on failure);
extension-file selection; signing (`process.exit(1)` on failure). -/
def issueSignedCert (opts : CertOptions) (certDir name : String)
    (issuer : CertInfo) (hostnames : Option (List String))
    (st : BuilderState) (o : IssueOracle) :
    IssueResult × BuilderState × List Effect :=
  let pathPref := joinPath certDir name
  let certInfo : CertInfo := ⟨pathPref ++ ".crt", pathPref ++ ".key", none⟩
  let check :=
    if opts.safeMode then
      overwriteCheck st.fs o.confirmAnswer [certInfo.keyPath, certInfo.certPath]
    else (true, [])
  if check.1 = false then (.declined, st, check.2)
  else
    let isSsl : Bool :=
      match hostnames with
      | some hs => decide (hs.length > 0)
      | none => false
    let subjAltName : Option (List String) :=
      if isSsl then some ((hostnames.getD []).map (fun h => "DNS:" ++ h))
      else none
    let st1 :=
      if isSsl then st
      else { st with newCAs := st.newCAs ++ [certInfo.certPath] }
    let td := getTempDir st1 o.tempDirName
    let csrEff : Effect :=
      .spawn "openssl" (csrArgs opts name certInfo.keyPath td.1)
    let tail : IssueResult × BuilderState × List Effect :=
      if o.csrOk = false then (.exited 1, td.2.1, [])
      else
        let ext :=
          match subjAltName with
          | some san =>
            let p := joinPath td.1 "ssl_extensions.conf"
            (p, [Effect.writeConf p [("cert_extensions", leafExtSection san)]])
          | none => (confFilePath td.1, ([] : List Effect))
        let sArgs :=
          signArgs td.1 issuer.certPath issuer.keyPath pathPref ext.1
            issuer.password.isSome
        let signEffs := Effect.spawn "openssl" sArgs ::
          (match issuer.password with
           | some pw => [Effect.stdinWrite pw]
           | none => [])
        if o.signOk = false then (.exited 1, td.2.1, ext.2 ++ signEffs)
        else (.issued certInfo, td.2.1, ext.2 ++ signEffs)
    (tail.1, tail.2.1, check.2 ++ td.2.2 ++ csrEff :: tail.2.2)

/-! ### `createRootCA` (lines 294-383) -/

/-- Result of `createRootCA`: the created root descriptor, or
`process.exit(1)` after a declined overwrite confirmation (line 322)
or after a failed engine invocation (line 381). -/
inductive RootResult
  | created (info : CertInfo)
  | abortedOverwrite
  | engineFailed
deriving DecidableEq

/-- Collaborator responses during one `createRootCA` call:
`promptedPassword` is what `passwordPrompt` returns (persistent-key
case), `randomPassword` what `crypto.randomBytes(32).toString("hex")`
returns (ephemeral case). -/
structure RootOracle where
  confirmAnswer : String → Bool
  promptedPassword : String
  randomPassword : String
  tempDirName : String
  reqOk : Bool

/-- Arguments of the self-signing invocation (lines 340-369): the
password travels via `-passout stdin`, never in the list. -/
def rootReqArgs (opts : CertOptions) (keyPath certPath confPath : String) :
    List String :=
  ["req", "-x509", "-new", "-newkey", opts.keyType,
   "-keyout", keyPath,
   "-passout", "stdin",
   "-out", certPath,
   "-days", "9999",
   "-config", confPath,
   "-extensions", "root_cert_extensions",
   "-text"]

/-- The operation `createRootCA()` (lines 294-383).  Without a persistent key path
the private key lives in the workspace under the literal filename
`$certName.key` (the template string on line 300 has no braces, so
`$certName` is not interpolated).  The password is prompted (with
confirmation) for a persistent key, random otherwise, and is written
to the spawned process's stdin before the invocation is awaited; on
success the descriptor is memoized and the certificate path is
appended to `#newCAs`. -/
def createRootCA (opts : CertOptions) (certDir : String)
    (persistentRootCAKeyPath : Option String) (st : BuilderState)
    (o : RootOracle) : RootResult × BuilderState × List Effect :=
  let certName := opts.org ++ " Root Dev CA"
  let keyRes :=
    match persistentRootCAKeyPath with
    | some p => (p, st, ([] : List Effect))
    | none =>
      let td := getTempDir st o.tempDirName
      (joinPath td.1 "$certName.key", td.2.1, td.2.2)
  let certInfo0 : CertInfo := ⟨joinPath certDir (certName ++ ".crt"), keyRes.1, none⟩
  let existingFiles :=
    [certInfo0.keyPath, certInfo0.certPath].filter
      (fun p => keyRes.2.1.fs.contains p)
  let confirmMsg := "Files exist:\n  " ++ String.intercalate "\n  " existingFiles
    ++ "\nOverwrite existing files ?"
  let confirmEffs : List Effect :=
    if opts.safeMode ∧ existingFiles.length > 0 then [.confirmPrompt confirmMsg]
    else []
  if opts.safeMode ∧ existingFiles.length > 0 ∧
      o.confirmAnswer confirmMsg = false then
    (.abortedOverwrite, keyRes.2.1, keyRes.2.2 ++ confirmEffs)
  else
    let pw :=
      match persistentRootCAKeyPath with
      | some _ =>
        (o.promptedPassword,
         [Effect.passwordPrompt "Create a password for the root CA: "])
      | none => (o.randomPassword, ([] : List Effect))
    let certInfo : CertInfo := ⟨certInfo0.certPath, certInfo0.keyPath, some pw.1⟩
    -- `await this.#getConfFile()` (line 362) resolves the workspace
    -- for the config path even in the persistent-key case.
    let td2 := getTempDir keyRes.2.1 o.tempDirName
    let args := rootReqArgs opts certInfo.keyPath certInfo.certPath
      (confFilePath td2.1)
    let spawnEffs : List Effect :=
      [.spawn "openssl" args, .stdinWrite pw.1]
    if o.reqOk = false then
      (.engineFailed, td2.2.1,
       keyRes.2.2 ++ confirmEffs ++ pw.2 ++ td2.2.2 ++ spawnEffs)
    else
      (.created certInfo,
       { td2.2.1 with rootCAInfo := some certInfo,
                      newCAs := td2.2.1.newCAs ++ [certInfo.certPath] },
       keyRes.2.2 ++ confirmEffs ++ pw.2 ++ td2.2.2 ++ spawnEffs)

/-! ### `#cleanUp` (lines 673-697) -/

inductive CleanUpResult
  | normal
  | fatalRootKeyUndeleted   -- process.exit(1): the temp root key survived
deriving DecidableEq

/-- The handler `#cleanUp`, run from the process-exit handler.  Returns the
outcome and the "Install new CA certs" listing it prints (empty when
nothing is printed).  When removing the workspace fails while the
root CA key lived only there (no persistent path, `#rootCAInfo`
set — its `keyPath` is always a nonempty string), the process exits
before reaching the listing. -/
def cleanUp (persistentRootCAKeyPath : Option String) (st : BuilderState)
    (rmOk : Bool) : CleanUpResult × List String :=
  match st.tempDir with
  | some _ =>
    if rmOk = false ∧ persistentRootCAKeyPath = none ∧ st.rootCAInfo.isSome then
      (.fatalRootKeyUndeleted, [])
    else (.normal, if st.newCAs.length > 0 then st.newCAs else [])
  | none => (.normal, if st.newCAs.length > 0 then st.newCAs else [])

/-- The engine invocations of a trace: command-line argument lists of
the `spawn` effects, in order. -/
def spawnCalls (effs : List Effect) : List (String × List String) :=
  effs.filterMap (fun eff =>
    match eff with
    | .spawn cmd args => some (cmd, args)
    | _ => none)

/-! ### Builder lemmas -/

theorem overwriteCheck_effects (fs : List String) (ca : String → Bool) :
    ∀ paths, ∀ eff ∈ (overwriteCheck fs ca paths).2,
      ∃ m, eff = Effect.confirmPrompt m := by
  intro paths
  induction paths with
  | nil => intro eff h; simp [overwriteCheck] at h
  | cons p rest ih =>
    intro eff h
    unfold overwriteCheck at h
    by_cases h1 : fs.contains p
    · rw [if_pos h1] at h
      by_cases h2 : ca ("Overwrite existing file " ++ p ++ "?")
      · rw [if_pos h2] at h
        rcases List.mem_cons.mp h with rfl | h'
        · exact ⟨_, rfl⟩
        · exact ih eff h'
      · rw [if_neg h2] at h
        rcases List.mem_cons.mp h with rfl | h'
        · exact ⟨_, rfl⟩
        · simp at h'
    · rw [if_neg h1] at h
      exact ih eff h

theorem overwriteCheck_declines (fs : List String) (ca : String → Bool) :
    ∀ paths, (∃ p ∈ paths, fs.contains p = true ∧
        ca ("Overwrite existing file " ++ p ++ "?") = false) →
      (overwriteCheck fs ca paths).1 = false := by
  intro paths
  induction paths with
  | nil => rintro ⟨p, hp, _⟩; simp at hp
  | cons q rest ih =>
    rintro ⟨p, hp, hc, hd⟩
    unfold overwriteCheck
    rcases List.mem_cons.mp hp with rfl | hp'
    · rw [if_pos hc, if_neg (by rw [hd]; exact Bool.false_ne_true)]
    · by_cases h1 : fs.contains q
      · rw [if_pos h1]
        by_cases h2 : ca ("Overwrite existing file " ++ q ++ "?")
        · rw [if_pos h2]
          exact ih ⟨p, hp', hc, hd⟩
        · rw [if_neg h2]
      · rw [if_neg h1]
        exact ih ⟨p, hp', hc, hd⟩

/-- C4: with safe mode on, when a target key or certificate file
already exists and the operator declines its overwrite confirmation,
`issueSignedCert` returns `null` (not an exit, not a descriptor), the
builder state — in particular the set of files on disk — is unchanged,
and the only effects performed are confirmation prompts: no engine
invocation, no config write, no workspace creation. -/
theorem issueSignedCert_declined_no_effects (opts : CertOptions)
    (certDir name : String) (issuer : CertInfo)
    (hostnames : Option (List String)) (st : BuilderState) (o : IssueOracle)
    (hsafe : opts.safeMode = true)
    (hdecl : ∃ p ∈ [joinPath certDir name ++ ".key",
                    joinPath certDir name ++ ".crt"],
      st.fs.contains p = true ∧
      o.confirmAnswer ("Overwrite existing file " ++ p ++ "?") = false) :
    (issueSignedCert opts certDir name issuer hostnames st o).1 = .declined ∧
    (issueSignedCert opts certDir name issuer hostnames st o).2.1 = st ∧
    ∀ eff ∈ (issueSignedCert opts certDir name issuer hostnames st o).2.2,
      ∃ m, eff = Effect.confirmPrompt m := by
  have hks := overwriteCheck_declines st.fs o.confirmAnswer
    [joinPath certDir name ++ ".key", joinPath certDir name ++ ".crt"] hdecl
  unfold issueSignedCert
  simp only [hsafe, if_true]
  rw [if_pos hks]
  exact ⟨rfl, rfl, overwriteCheck_effects st.fs o.confirmAnswer _⟩

/-- Witness for C4: the key file exists, the operator declines, and
the call returns `null` with the state untouched after one prompt. -/
theorem issueSignedCert_declined_no_effects_witness :
    (∃ p ∈ [joinPath "d" "a.test" ++ ".key", joinPath "d" "a.test" ++ ".crt"],
      (["d/a.test.key"] : List String).contains p = true ∧
      (fun _ => false : String → Bool)
        ("Overwrite existing file " ++ p ++ "?") = false) ∧
    (issueSignedCert {} "d" "a.test" ⟨"d/i.crt", "d/i.key", none⟩
        (some ["a.test"]) ⟨["d/a.test.key"], [], none, none⟩
        ⟨fun _ => false, true, true, "/tmp/ws"⟩).1 = .declined ∧
    (issueSignedCert {} "d" "a.test" ⟨"d/i.crt", "d/i.key", none⟩
        (some ["a.test"]) ⟨["d/a.test.key"], [], none, none⟩
        ⟨fun _ => false, true, true, "/tmp/ws"⟩).2.1 =
      ⟨["d/a.test.key"], [], none, none⟩ :=
  ⟨⟨"d/a.test.key", by simp [joinPath], rfl, rfl⟩,
   (issueSignedCert_declined_no_effects {} "d" "a.test"
      ⟨"d/i.crt", "d/i.key", none⟩ (some ["a.test"])
      ⟨["d/a.test.key"], [], none, none⟩
      ⟨fun _ => false, true, true, "/tmp/ws"⟩ rfl
      ⟨"d/a.test.key", by simp [joinPath], rfl, rfl⟩).1,
   (issueSignedCert_declined_no_effects {} "d" "a.test"
      ⟨"d/i.crt", "d/i.key", none⟩ (some ["a.test"])
      ⟨["d/a.test.key"], [], none, none⟩
      ⟨fun _ => false, true, true, "/tmp/ws"⟩ rfl
      ⟨"d/a.test.key", by simp [joinPath], rfl, rfl⟩).2.1⟩

/-- C9: the workspace accessor is idempotent.  A first call on a
builder without a workspace performs exactly one `mkdtemp` and
memoizes the resulting path; any subsequent call returns the identical
path with no effect and no state change; a call on a builder that
already has a workspace likewise returns it unchanged. -/
theorem getTempDir_idempotent (st : BuilderState) (n1 n2 : String) :
    ((getTempDir st n1).2.1.tempDir = some (getTempDir st n1).1) ∧
    (getTempDir (getTempDir st n1).2.1 n2).1 = (getTempDir st n1).1 ∧
    (getTempDir (getTempDir st n1).2.1 n2).2.1 = (getTempDir st n1).2.1 ∧
    (getTempDir (getTempDir st n1).2.1 n2).2.2 = [] ∧
    (st.tempDir = none →
      (getTempDir st n1).1 = n1 ∧
      (getTempDir st n1).2.2 = [Effect.mkdtemp n1]) ∧
    (∀ d, st.tempDir = some d →
      (getTempDir st n1).1 = d ∧ (getTempDir st n1).2.2 = []) := by
  rcases hd : st.tempDir with _ | d <;>
    simp [getTempDir, hd]

/-- Witness for C9 on a fresh builder state. -/
theorem getTempDir_idempotent_witness :
    (⟨[], [], none, none⟩ : BuilderState).tempDir = none ∧
    (getTempDir ⟨[], [], none, none⟩ "/tmp/ws-1").1 = "/tmp/ws-1" ∧
    (getTempDir (getTempDir ⟨[], [], none, none⟩ "/tmp/ws-1").2.1 "/tmp/ws-2").1 =
      (getTempDir ⟨[], [], none, none⟩ "/tmp/ws-1").1 ∧
    (getTempDir (getTempDir ⟨[], [], none, none⟩ "/tmp/ws-1").2.1 "/tmp/ws-2").2.2 = [] :=
  ⟨rfl,
   ((getTempDir_idempotent ⟨[], [], none, none⟩ "/tmp/ws-1" "/tmp/ws-2").2.2.2.2.1 rfl).1,
   (getTempDir_idempotent ⟨[], [], none, none⟩ "/tmp/ws-1" "/tmp/ws-2").2.1,
   (getTempDir_idempotent ⟨[], [], none, none⟩ "/tmp/ws-1" "/tmp/ws-2").2.2.2.1⟩

/-- C7: among the extension sets of `sharedConfig`, the intermediate
one (`cert_extensions`, the section the signing invocations select)
carries the name constraint `critical,permitted;DNS:.test`, while the
root set, the leaf set, and the request-specific leaf section actually
written for any SAN list carry no name constraint at all. -/
theorem domain_constraint_only_intermediate (opts : CertOptions)
    (san : List String) :
    ("nameConstraints", "critical,permitted;DNS:.test") ∈ certExtensions ∧
    (sharedConfig opts).lookup "cert_extensions" = some certExtensions ∧
    (sharedConfig opts).lookup "root_cert_extensions" = some rootCertExtensions ∧
    (sharedConfig opts).lookup "ssl_cert_extensions" = some sslCertExtensions ∧
    (∀ v, ("nameConstraints", v) ∉ rootCertExtensions) ∧
    (∀ v, ("nameConstraints", v) ∉ sslCertExtensions) ∧
    (∀ v, ("nameConstraints", v) ∉ leafExtSection san) := by
  refine ⟨by decide, rfl, rfl, rfl, ?_, ?_, ?_⟩
  · intro v
    simp [rootCertExtensions]
  · intro v
    simp [sslCertExtensions]
  · intro v
    simp [leafExtSection, setKey, sslCertExtensions]

/-- C10: calling `issueSignedCert` with an empty hostname array is
exactly the CA-link path taken when the argument is omitted: the two
calls produce identical results, states and traces.  On that path,
whenever the call is not aborted by a declined confirmation, the
certificate path is registered in `#newCAs`, no request-specific
extension file is ever written, and as soon as CSR generation
succeeds the signing invocation appears in the trace with the shared
config file (whose `cert_extensions` section carries the domain name
constraint) as its `-extfile`. -/
theorem issueSignedCert_empty_hostnames_is_ca (opts : CertOptions)
    (certDir name : String) (issuer : CertInfo) (st : BuilderState)
    (o : IssueOracle) :
    issueSignedCert opts certDir name issuer (some []) st o =
      issueSignedCert opts certDir name issuer none st o ∧
    ((issueSignedCert opts certDir name issuer none st o).1 ≠ .declined →
      (joinPath certDir name ++ ".crt")
        ∈ (issueSignedCert opts certDir name issuer none st o).2.1.newCAs ∧
      (∀ p secs, Effect.writeConf p secs
        ∉ (issueSignedCert opts certDir name issuer none st o).2.2) ∧
      (o.csrOk = true →
        Effect.spawn "openssl"
          (signArgs (st.tempDir.getD o.tempDirName) issuer.certPath
            issuer.keyPath (joinPath certDir name)
            (confFilePath (st.tempDir.getD o.tempDirName))
            issuer.password.isSome)
          ∈ (issueSignedCert opts certDir name issuer none st o).2.2)) := by
  constructor
  · rfl
  · intro hres
    by_cases hchk :
        (if opts.safeMode then
          overwriteCheck st.fs o.confirmAnswer
            [joinPath certDir name ++ ".key", joinPath certDir name ++ ".crt"]
        else (true, [])).1 = false
    · exfalso
      apply hres
      simp only [issueSignedCert]
      rw [if_pos hchk]
    · have hconfEffs : ∀ eff ∈ (if opts.safeMode then
          overwriteCheck st.fs o.confirmAnswer
            [joinPath certDir name ++ ".key", joinPath certDir name ++ ".crt"]
        else (true, ([] : List Effect))).2, ∃ m, eff = Effect.confirmPrompt m := by
        by_cases hs : opts.safeMode = true
        · rw [if_pos hs]
          exact overwriteCheck_effects st.fs o.confirmAnswer _
        · rw [if_neg hs]
          intro eff h
          simp at h
      simp only [issueSignedCert]
      rw [if_neg hchk]
      refine ⟨?_, ?_, ?_⟩
      · rcases htd : st.tempDir with _ | d <;>
          rcases hcsr : o.csrOk with _ | _ <;>
          rcases hsign : o.signOk with _ | _ <;>
          simp [getTempDir, htd, hcsr, hsign]
      · intro p secs hmem
        have hnot : Effect.writeConf p secs ∉ (if opts.safeMode then
            overwriteCheck st.fs o.confirmAnswer
              [joinPath certDir name ++ ".key", joinPath certDir name ++ ".crt"]
          else (true, ([] : List Effect))).2 := by
          intro hin
          rcases hconfEffs _ hin with ⟨m, hm⟩
          simp at hm
        rcases htd : st.tempDir with _ | d <;>
          rcases hcsr : o.csrOk with _ | _ <;>
          rcases hsign : o.signOk with _ | _ <;>
          rcases hpw : issuer.password with _ | pw <;>
          simp [getTempDir, htd, hcsr, hsign, hpw] at hmem <;>
          exact hnot hmem
      · intro hcsrT
        rcases htd : st.tempDir with _ | d <;>
          rcases hsign : o.signOk with _ | _ <;>
          rcases hpw : issuer.password with _ | pw <;>
          simp [getTempDir, htd, hcsrT, hsign, hpw, signArgs, confFilePath]

/-- Witness for C10 at a concrete CA-link issuance that succeeds. -/
theorem issueSignedCert_empty_hostnames_is_ca_witness :
    issueSignedCert {} "d" "Inter" ⟨"d/r.crt", "d/r.key", none⟩ (some [])
        ⟨[], [], none, none⟩ ⟨fun _ => true, true, true, "/tmp/ws"⟩ =
      issueSignedCert {} "d" "Inter" ⟨"d/r.crt", "d/r.key", none⟩ none
        ⟨[], [], none, none⟩ ⟨fun _ => true, true, true, "/tmp/ws"⟩ ∧
    (joinPath "d" "Inter" ++ ".crt")
      ∈ (issueSignedCert {} "d" "Inter" ⟨"d/r.crt", "d/r.key", none⟩ none
          ⟨[], [], none, none⟩
          ⟨fun _ => true, true, true, "/tmp/ws"⟩).2.1.newCAs :=
  ⟨(issueSignedCert_empty_hostnames_is_ca {} "d" "Inter"
      ⟨"d/r.crt", "d/r.key", none⟩ ⟨[], [], none, none⟩
      ⟨fun _ => true, true, true, "/tmp/ws"⟩).1,
   ((issueSignedCert_empty_hostnames_is_ca {} "d" "Inter"
      ⟨"d/r.crt", "d/r.key", none⟩ ⟨[], [], none, none⟩
      ⟨fun _ => true, true, true, "/tmp/ws"⟩).2 (by decide)).1⟩

/-- Counterexample for C5: in a CA-link issuance (`hostnames`
omitted) whose CSR-generation invocation fails, the process exits
with the certificate path already registered in `#newCAs`, and the
at-exit cleanup prints that path in its "Install new CA certs"
report — the failed artifact does appear in the report. -/
theorem newCAs_report_contains_failed_path :
    (issueSignedCert {} "certs" "Acme Intermediate Dev CA"
        ⟨"certs/root.crt", "certs/root.key", none⟩ none
        ⟨[], [], none, none⟩ ⟨fun _ => true, false, true, "/tmp/ws"⟩).1 =
      .exited 1 ∧
    "certs/Acme Intermediate Dev CA.crt"
      ∈ (issueSignedCert {} "certs" "Acme Intermediate Dev CA"
          ⟨"certs/root.crt", "certs/root.key", none⟩ none
          ⟨[], [], none, none⟩
          ⟨fun _ => true, false, true, "/tmp/ws"⟩).2.1.newCAs ∧
    "certs/Acme Intermediate Dev CA.crt"
      ∈ (cleanUp none
          (issueSignedCert {} "certs" "Acme Intermediate Dev CA"
            ⟨"certs/root.crt", "certs/root.key", none⟩ none
            ⟨[], [], none, none⟩
            ⟨fun _ => true, false, true, "/tmp/ws"⟩).2.1 true).2 :=
  ⟨rfl, by decide, by decide⟩

/-- The cleanup prints every registered path whenever it does not take
the fatal early-exit path. -/
theorem cleanUp_reports_newCAs (pk : Option String) (st : BuilderState)
    (rmOk : Bool) (x : String) (hx : x ∈ st.newCAs)
    (hn : (cleanUp pk st rmOk).1 = .normal) :
    x ∈ (cleanUp pk st rmOk).2 := by
  have hlen : st.newCAs.length > 0 :=
    List.length_pos.mpr (List.ne_nil_of_mem hx)
  unfold cleanUp at hn ⊢
  rcases htd : st.tempDir with _ | d
  · simpa [hlen] using hx
  · by_cases hf : rmOk = false ∧ pk = none ∧ st.rootCAInfo.isSome = true
    · simp [htd, hf] at hn
    · simp [hf, hlen]
      exact hx

/-- C5 amended: in a CA-link issuance the certificate path is appended
to `#newCAs` *before* the engine invocations (cert-builder.js line
412), so whenever the call is not aborted by a declined confirmation —
including when CSR generation or signing fails and the process exits —
the path is registered, and the at-exit cleanup (when it reaches its
report) prints it.  Only `createRootCA` registers its path after the
engine invocation succeeds. -/
theorem issueSignedCert_registers_ca_before_engine (opts : CertOptions)
    (certDir name : String) (issuer : CertInfo) (st : BuilderState)
    (o : IssueOracle)
    (hres : (issueSignedCert opts certDir name issuer none st o).1 ≠ .declined) :
    (joinPath certDir name ++ ".crt")
      ∈ (issueSignedCert opts certDir name issuer none st o).2.1.newCAs ∧
    ∀ pk rmOk,
      (cleanUp pk
        (issueSignedCert opts certDir name issuer none st o).2.1 rmOk).1 = .normal →
      (joinPath certDir name ++ ".crt")
        ∈ (cleanUp pk
            (issueSignedCert opts certDir name issuer none st o).2.1 rmOk).2 := by
  have hmem : (joinPath certDir name ++ ".crt")
      ∈ (issueSignedCert opts certDir name issuer none st o).2.1.newCAs := by
    by_cases hchk :
        (if opts.safeMode then
          overwriteCheck st.fs o.confirmAnswer
            [joinPath certDir name ++ ".key", joinPath certDir name ++ ".crt"]
        else (true, [])).1 = false
    · exfalso
      apply hres
      simp only [issueSignedCert]
      rw [if_pos hchk]
    · simp only [issueSignedCert]
      rw [if_neg hchk]
      rcases htd : st.tempDir with _ | d <;>
        rcases hcsr : o.csrOk with _ | _ <;>
        rcases hsign : o.signOk with _ | _ <;>
        simp [getTempDir, htd, hcsr, hsign]
  exact ⟨hmem, fun pk rmOk hn =>
    cleanUp_reports_newCAs pk _ rmOk _ hmem hn⟩

/-- Witness for C5's amended claim at a concrete failing CSR
invocation. -/
theorem issueSignedCert_registers_ca_before_engine_witness :
    (issueSignedCert {} "certs" "Acme Intermediate Dev CA"
        ⟨"certs/root.crt", "certs/root.key", none⟩ none
        ⟨[], [], none, none⟩ ⟨fun _ => true, false, true, "/tmp/ws"⟩).1 ≠
      .declined ∧
    "certs/Acme Intermediate Dev CA.crt"
      ∈ (issueSignedCert {} "certs" "Acme Intermediate Dev CA"
          ⟨"certs/root.crt", "certs/root.key", none⟩ none
          ⟨[], [], none, none⟩
          ⟨fun _ => true, false, true, "/tmp/ws"⟩).2.1.newCAs :=
  ⟨by decide,
   (issueSignedCert_registers_ca_before_engine {} "certs"
      "Acme Intermediate Dev CA" ⟨"certs/root.crt", "certs/root.key", none⟩
      ⟨[], [], none, none⟩ ⟨fun _ => true, false, true, "/tmp/ws"⟩
      (by decide)).1⟩

/-- Counterexample for C6: with configured `countryName := "DE"`, the
CSR generated by `issueSignedCert` still carries the subject
`/C=US/O=Acme/CN=leaf.test` — the hardcoded literal `US` of
cert-builder.js line 438 — which differs from the subject
`/C=<countryName>/...` the claim prescribes. -/
theorem csr_subject_ignores_countryName :
    ({ countryName := "DE" } : CertOptions).countryName = "DE" ∧
    Effect.spawn "openssl"
        (csrArgs { countryName := "DE" } "leaf.test" "d/leaf.test.key" "/tmp/ws")
      ∈ (issueSignedCert { countryName := "DE" } "d" "leaf.test"
          ⟨"d/i.crt", "d/i.key", none⟩ (some ["leaf.test"])
          ⟨[], [], none, none⟩ ⟨fun _ => true, true, true, "/tmp/ws"⟩).2.2 ∧
    csrArgs { countryName := "DE" } "leaf.test" "d/leaf.test.key" "/tmp/ws" =
      ["req", "-batch", "-new", "-newkey", "rsa", "-nodes",
       "-keyout", "d/leaf.test.key",
       "-out", "/tmp/ws/req.csr",
       "-config", "/tmp/ws/shared.conf",
       "-subj", "/C=US/O=Acme/CN=leaf.test",
       "-text"] ∧
    ("/C=US/O=Acme/CN=leaf.test" : String) ≠
      "/C=" ++ ({ countryName := "DE" } : CertOptions).countryName ++
        "/O=" ++ ({ countryName := "DE" } : CertOptions).org ++
        "/CN=" ++ "leaf.test" :=
  ⟨rfl, by decide, rfl, by decide⟩

/-- C6 amended: the CSR generated by `issueSignedCert` carries the
subject `/C=US/O=<org>/CN=<name>`, with the country hardcoded to `US`
regardless of the configured `countryName` (only the organization and
the certificate name come from the configuration and the request). -/
theorem issueSignedCert_csr_subject_hardcoded_us (opts : CertOptions)
    (certDir name : String) (issuer : CertInfo)
    (hostnames : Option (List String)) (st : BuilderState) (o : IssueOracle)
    (hres : (issueSignedCert opts certDir name issuer hostnames st o).1 ≠
      .declined) :
    Effect.spawn "openssl"
        (csrArgs opts name (joinPath certDir name ++ ".key")
          (st.tempDir.getD o.tempDirName))
      ∈ (issueSignedCert opts certDir name issuer hostnames st o).2.2 ∧
    ∃ l1 l2,
      csrArgs opts name (joinPath certDir name ++ ".key")
          (st.tempDir.getD o.tempDirName) =
        l1 ++ "-subj" :: ("/C=US/O=" ++ opts.org ++ "/CN=" ++ name) :: l2 := by
  constructor
  · by_cases hchk :
        (if opts.safeMode then
          overwriteCheck st.fs o.confirmAnswer
            [joinPath certDir name ++ ".key", joinPath certDir name ++ ".crt"]
        else (true, [])).1 = false
    · exfalso
      apply hres
      simp only [issueSignedCert]
      rw [if_pos hchk]
    · simp only [issueSignedCert]
      rw [if_neg hchk]
      rcases hh : hostnames with _ | hs
      · rcases htd : st.tempDir with _ | d <;>
          simp [getTempDir, htd]
      · by_cases hlen : hs.length > 0 <;>
          rcases htd : st.tempDir with _ | d <;>
          simp [getTempDir, htd, hlen]
  · exact ⟨["req", "-batch", "-new", "-newkey", opts.keyType, "-nodes",
      "-keyout", joinPath certDir name ++ ".key",
      "-out", joinPath (st.tempDir.getD o.tempDirName) "req.csr",
      "-config", confFilePath (st.tempDir.getD o.tempDirName)],
      ["-text"], rfl⟩

/-- Witness for C6's amended claim at a concrete leaf issuance. -/
theorem issueSignedCert_csr_subject_hardcoded_us_witness :
    (issueSignedCert { countryName := "DE" } "d" "leaf.test"
        ⟨"d/i.crt", "d/i.key", none⟩ (some ["leaf.test"])
        ⟨[], [], none, none⟩ ⟨fun _ => true, true, true, "/tmp/ws"⟩).1 ≠
      .declined ∧
    Effect.spawn "openssl"
        (csrArgs { countryName := "DE" } "leaf.test"
          (joinPath "d" "leaf.test" ++ ".key") "/tmp/ws")
      ∈ (issueSignedCert { countryName := "DE" } "d" "leaf.test"
          ⟨"d/i.crt", "d/i.key", none⟩ (some ["leaf.test"])
          ⟨[], [], none, none⟩ ⟨fun _ => true, true, true, "/tmp/ws"⟩).2.2 :=
  ⟨by decide,
   (issueSignedCert_csr_subject_hardcoded_us { countryName := "DE" } "d"
      "leaf.test" ⟨"d/i.crt", "d/i.key", none⟩ (some ["leaf.test"])
      ⟨[], [], none, none⟩ ⟨fun _ => true, true, true, "/tmp/ws"⟩
      (by decide)).1⟩

set_option maxHeartbeats 2000000 in
/-- C8: passwords never appear on engine command lines.  The
argument lists of the engine invocations of `createRootCA` are
identical whatever the prompted/random password values are, and
likewise for `issueSignedCert` signing with a password-protected
issuer whatever the issuer password value is (a noninterference
statement: the spawned command lines carry no information about the
password); the password reaches the engine only as a write to the
spawned process's stdin, which is present in the trace whenever the
corresponding invocation is. -/
theorem password_never_in_args (opts : CertOptions) (certDir name : String)
    (pk : Option String) (st : BuilderState) (cf : String → Bool)
    (tdn : String) (reqOk : Bool) (p1 p2 r1 r2 : String)
    (io : IssueOracle) (cp kp : String) (q1 q2 : String)
    (hostnames : Option (List String)) :
    spawnCalls (createRootCA opts certDir pk st ⟨cf, p1, r1, tdn, reqOk⟩).2.2 =
      spawnCalls (createRootCA opts certDir pk st ⟨cf, p2, r2, tdn, reqOk⟩).2.2 ∧
    ((createRootCA opts certDir pk st ⟨cf, p1, r1, tdn, reqOk⟩).1 ≠
        .abortedOverwrite →
      Effect.stdinWrite (match pk with | some _ => p1 | none => r1)
        ∈ (createRootCA opts certDir pk st ⟨cf, p1, r1, tdn, reqOk⟩).2.2) ∧
    spawnCalls
        (issueSignedCert opts certDir name ⟨cp, kp, some q1⟩ hostnames st io).2.2 =
      spawnCalls
        (issueSignedCert opts certDir name ⟨cp, kp, some q2⟩ hostnames st io).2.2 ∧
    (io.csrOk = true →
      (issueSignedCert opts certDir name ⟨cp, kp, some q1⟩ hostnames st io).1 ≠
        .declined →
      Effect.stdinWrite q1
        ∈ (issueSignedCert opts certDir name ⟨cp, kp, some q1⟩
            hostnames st io).2.2) := by
  refine ⟨?_, ?_, ?_, ?_⟩
  · unfold createRootCA
    rcases pk with _ | p <;>
      rcases htd : st.tempDir with _ | d <;>
      simp only [getTempDir, htd] <;>
      split <;> split <;>
      first | rfl | simp_all [spawnCalls]
  · intro hres
    unfold createRootCA at hres ⊢
    rcases pk with _ | p <;>
      rcases htd : st.tempDir with _ | d <;>
      simp only [getTempDir, htd] at hres ⊢ <;>
      split at hres <;>
      first
        | (exact absurd rfl hres)
        | (clear hres
           split <;> first | (simp; done) | (simp_all; done) | (split <;> simp))
  · by_cases hchk :
        (if opts.safeMode then
          overwriteCheck st.fs io.confirmAnswer
            [joinPath certDir name ++ ".key", joinPath certDir name ++ ".crt"]
        else (true, [])).1 = false
    · simp only [issueSignedCert]
      rw [if_pos hchk, if_pos hchk]
    · simp only [issueSignedCert]
      rw [if_neg hchk, if_neg hchk]
      rcases hh : hostnames with _ | hs
      · rcases htd : st.tempDir with _ | d <;>
          rcases hcsr : io.csrOk with _ | _ <;>
          rcases hsign : io.signOk with _ | _ <;>
          simp [getTempDir, htd, hcsr, hsign, spawnCalls]
      · by_cases hlen : hs.length > 0 <;>
          rcases htd : st.tempDir with _ | d <;>
          rcases hcsr : io.csrOk with _ | _ <;>
          rcases hsign : io.signOk with _ | _ <;>
          simp [getTempDir, htd, hcsr, hsign, hlen, spawnCalls]
  · intro hcsrT hres
    by_cases hchk :
        (if opts.safeMode then
          overwriteCheck st.fs io.confirmAnswer
            [joinPath certDir name ++ ".key", joinPath certDir name ++ ".crt"]
        else (true, [])).1 = false
    · exfalso
      apply hres
      simp only [issueSignedCert]
      rw [if_pos hchk]
    · simp only [issueSignedCert]
      rw [if_neg hchk]
      rcases hh : hostnames with _ | hs
      · rcases htd : st.tempDir with _ | d <;>
          rcases hsign : io.signOk with _ | _ <;>
          simp [getTempDir, htd, hcsrT, hsign]
      · by_cases hlen : hs.length > 0 <;>
          rcases htd : st.tempDir with _ | d <;>
          rcases hsign : io.signOk with _ | _ <;>
          simp [getTempDir, htd, hcsrT, hsign, hlen]

/-- Witness for C8 at concrete runs: two root creations differing only
in their password oracles issue identical command lines, the password
travels via stdin, and likewise for a concrete signing with a
password-protected issuer. -/
theorem password_never_in_args_witness :
    spawnCalls (createRootCA {} "d" none ⟨[], [], none, none⟩
        ⟨fun _ => true, "promptA", "randomA", "/tmp/ws", true⟩).2.2 =
      spawnCalls (createRootCA {} "d" none ⟨[], [], none, none⟩
        ⟨fun _ => true, "promptB", "randomB", "/tmp/ws", true⟩).2.2 ∧
    Effect.stdinWrite "randomA"
      ∈ (createRootCA {} "d" none ⟨[], [], none, none⟩
          ⟨fun _ => true, "promptA", "randomA", "/tmp/ws", true⟩).2.2 ∧
    spawnCalls (issueSignedCert {} "d" "a.test" ⟨"d/i.crt", "d/i.key", some "pwA"⟩
        (some ["a.test"]) ⟨[], [], none, none⟩
        ⟨fun _ => true, true, true, "/tmp/ws"⟩).2.2 =
      spawnCalls (issueSignedCert {} "d" "a.test" ⟨"d/i.crt", "d/i.key", some "pwB"⟩
        (some ["a.test"]) ⟨[], [], none, none⟩
        ⟨fun _ => true, true, true, "/tmp/ws"⟩).2.2 ∧
    Effect.stdinWrite "pwA"
      ∈ (issueSignedCert {} "d" "a.test" ⟨"d/i.crt", "d/i.key", some "pwA"⟩
          (some ["a.test"]) ⟨[], [], none, none⟩
          ⟨fun _ => true, true, true, "/tmp/ws"⟩).2.2 :=
  ⟨(password_never_in_args {} "d" "a.test" none ⟨[], [], none, none⟩
      (fun _ => true) "/tmp/ws" true "promptA" "promptB" "randomA" "randomB"
      ⟨fun _ => true, true, true, "/tmp/ws"⟩ "d/i.crt" "d/i.key" "pwA" "pwB"
      (some ["a.test"])).1,
   (password_never_in_args {} "d" "a.test" none ⟨[], [], none, none⟩
      (fun _ => true) "/tmp/ws" true "promptA" "promptB" "randomA" "randomB"
      ⟨fun _ => true, true, true, "/tmp/ws"⟩ "d/i.crt" "d/i.key" "pwA" "pwB"
      (some ["a.test"])).2.1 (by decide),
   (password_never_in_args {} "d" "a.test" none ⟨[], [], none, none⟩
      (fun _ => true) "/tmp/ws" true "promptA" "promptB" "randomA" "randomB"
      ⟨fun _ => true, true, true, "/tmp/ws"⟩ "d/i.crt" "d/i.key" "pwA" "pwB"
      (some ["a.test"])).2.2.1,
   (password_never_in_args {} "d" "a.test" none ⟨[], [], none, none⟩
      (fun _ => true) "/tmp/ws" true "promptA" "promptB" "randomA" "randomB"
      ⟨fun _ => true, true, true, "/tmp/ws"⟩ "d/i.crt" "d/i.key" "pwA" "pwB"
      (some ["a.test"])).2.2.2 rfl (by decide)⟩

end LocalSslCerts
